import Mathlib

/-!
# Verification of the bounded tool-invocation loop and helpers

Shallow embedding of the repository's core functions:

* `src/lesson2/agent_raw_api.py` — `run_agent` (the bounded agentic loop),
  `execute_tool`, `parse_react_components`;
* `src/lesson1/chained_outreach.py` — `chained_workflow`, `extract_profile_data`;
* `src/lesson2/tools/human_feedback.py` — the interactive path of
  `request_human_review`.

External collaborators (the generation-service HTTP client, the profile HTTP
transport, the console reader) are passed in as function parameters; the code
under verification is translated line by line from the Python source.
-/

/-! ### Python string primitives

Structural (kernel-computable) models of the Python string operations the
sources use: `split('\n')`, `startswith`, `strip`, `lower`,
`int(·)`/`isdigit`.  ASCII semantics, which is what the sources rely on. -/

/-- `text.split('\n')` on the character list: splitting on a separator always
yields at least one (possibly empty) piece. -/
def splitLinesAux : List Char → List String
  | [] => [""]
  | c :: cs =>
    let rest := splitLinesAux cs
    if c = '\n' then "" :: rest
    else
      match rest with
      | [] => [String.mk [c]]
      | r :: rs => String.mk (c :: r.data) :: rs

/-- Python `text.split('\n')`. -/
def pySplitLines (s : String) : List String :=
  splitLinesAux s.data

/-- Python `s.startswith(pre)`. -/
def pyStartsWith (s pre : String) : Bool :=
  pre.data.isPrefixOf s.data

/-- Python `s.strip()`: drop leading and trailing whitespace. -/
def pyStrip (s : String) : String :=
  String.mk
    (((s.data.dropWhile Char.isWhitespace).reverse.dropWhile
        Char.isWhitespace).reverse)

/-- Python `s.lower()` (ASCII). -/
def pyLower (s : String) : String :=
  String.mk (s.data.map Char.toLower)

/-- Python `s[n:]` (character-based slicing). -/
def pyDrop (s : String) (n : Nat) : String :=
  String.mk (s.data.drop n)

/-- Python `int(s) if s.isdigit() else` failure: `some` exactly on nonempty
all-digit strings (ASCII). -/
def pyParseNat? (s : String) : Option Nat :=
  if s.data ≠ [] ∧ s.data.all Char.isDigit then
    some (s.data.foldl (fun n c => n * 10 + (c.toNat - 48)) 0)
  else none

namespace AgentRawApi

/-- A `tool_use` content block of a generation-service response
(`block.id`, `block.name`, `block.input`).  Tool inputs are modelled as
string-to-string association lists (the JSON object of arguments). -/
structure ToolUseBlock where
  id : String
  name : String
  input : List (String × String)
deriving Repr, DecidableEq

/-- A content block of a response: `block.type == "text"` or `"tool_use"`. -/
inductive ContentBlock where
  | text (t : String)
  | toolUse (b : ToolUseBlock)
deriving Repr, DecidableEq

/-- The part of the Anthropic API response that `run_agent` reads:
`response.content`, `response.stop_reason`, `response.usage.*`. -/
structure ApiResponse where
  content : List ContentBlock
  stop_reason : String
  input_tokens : Nat
  output_tokens : Nat
deriving Repr, DecidableEq

/-- A `tool_result` dict as built at lines 396-400 of `agent_raw_api.py`:
`{"type": "tool_result", "tool_use_id": ..., "content": ...}`.
The source never writes an `is_error` key, so the field is an `Option Bool`
that the embedded code always leaves at `none` (key absent). -/
structure ToolResultBlock where
  tool_use_id : String
  content : String
  is_error : Option Bool
deriving Repr, DecidableEq

/-- Content of one entry of `messages`: the initial user prompt is a bare
string, assistant entries carry response blocks, and the tool-result user
entries carry `tool_result` blocks. -/
inductive MessageContent where
  | text (s : String)
  | assistantBlocks (bs : List ContentBlock)
  | toolResults (rs : List ToolResultBlock)
deriving Repr, DecidableEq

/-- One entry of the `messages` conversation history. -/
structure Message where
  role : String
  content : MessageContent
deriving Repr, DecidableEq

/-- One record of `metrics["api_calls"]`. -/
structure ApiCallRecord where
  turn : Nat
  input_tokens : Nat
  output_tokens : Nat
  stop_reason : String
deriving Repr, DecidableEq

/-- One record of `metrics["tool_calls"]`. -/
structure ToolCallRecord where
  turn : Nat
  tool : String
  input : List (String × String)
deriving Repr, DecidableEq

/-- The metrics dict accumulated by `run_agent`.  The `thoughts` list is
filled only by the debug pretty-printer (`display_react_trace`) and is
console-only, so it is omitted; cost arithmetic reads the token totals only. -/
structure Metrics where
  turns : Nat
  total_input_tokens : Nat
  total_output_tokens : Nat
  tool_calls : List ToolCallRecord
  api_calls : List ApiCallRecord
  final_response : String
deriving Repr, DecidableEq

/-- `metrics` as initialised at lines 285-293 (before `final_response` is
written; the model carries the field from the start with value `""`). -/
def initMetrics : Metrics :=
  { turns := 0
    total_input_tokens := 0
    total_output_tokens := 0
    tool_calls := []
    api_calls := []
    final_response := "" }

/-- Which exit path the `for turn in range(MAX_TURNS)` loop took:
the `break` at the termination check (line 390) or exhaustion of the range. -/
inductive LoopExit where
  | naturalCompletion (stop_reason : String)
  | budgetExhausted
deriving Repr, DecidableEq

/-- Everything `run_agent` holds when it leaves the loop. -/
structure RunResult where
  messages : List Message
  metrics : Metrics
  exit : LoopExit
deriving Repr, DecidableEq

/-- The generation-service client: `client.messages.create(...)` given the
current history.  `Except.error` models the call raising an exception. -/
def GenService : Type := List Message → Except String ApiResponse

/-- A tool executor: `execute_tool(tool_name, tool_input)` returns a bare
string in the source. -/
def ToolExec : Type := String → List (String × String) → String

/-- The `tool_use` blocks collected from `response.content`
(`tool_use_blocks` at lines 356, 369-370). -/
def toolUsesOf (blocks : List ContentBlock) : List ToolUseBlock :=
  blocks.filterMap fun b =>
    match b with
    | .text _ => none
    | .toolUse u => some u

/-- The `tool_result` blocks produced at lines 393-400 for one response:
one per `tool_use` block, in order, with the executor's string as content and
no `is_error` key (the source dict has only `type`, `tool_use_id`,
`content`). -/
def resultsFor (exec : ToolExec) (bs : List ContentBlock) : List ToolResultBlock :=
  (toolUsesOf bs).map fun b => ToolResultBlock.mk b.id (exec b.name b.input) none

/-- The metrics updates of one loop iteration (lines 310, 338-346, 377-381):
increment `turns`, add the token counts, record the api call, and log each
`tool_use` block. -/
def turnMetrics (turn : Nat) (m : Metrics) (resp : ApiResponse) : Metrics :=
  { m with
    turns := m.turns + 1
    total_input_tokens := m.total_input_tokens + resp.input_tokens
    total_output_tokens := m.total_output_tokens + resp.output_tokens
    api_calls := m.api_calls ++
      [ApiCallRecord.mk (turn + 1) resp.input_tokens resp.output_tokens
        resp.stop_reason]
    tool_calls := m.tool_calls ++
      (toolUsesOf resp.content).map fun b => ToolCallRecord.mk (turn + 1) b.name b.input }

/-- The assistant entry appended at line 384. -/
def assistantMsg (bs : List ContentBlock) : Message :=
  ⟨"assistant", .assistantBlocks bs⟩

/-- The user entry of tool results appended at line 403. -/
def toolResultsMsg (exec : ToolExec) (bs : List ContentBlock) : Message :=
  ⟨"user", .toolResults (resultsFor exec bs)⟩

/-- `text_response` after the block loop: it is re-initialised to `""` at
line 357 of every iteration and overwritten by each text block, so it ends
as the last text block of this turn's response, or `""` if there is none. -/
def lastTextOf (blocks : List ContentBlock) : String :=
  blocks.foldl
    (fun acc b =>
      match b with
      | .text t => t
      | .toolUse _ => acc)
    ""

/-- The body of `for turn in range(MAX_TURNS)` (lines 309-415), as a
fuel-indexed recursion.  `turn` is the loop index, `fuel` the remaining
iterations, `tr` the `text_response` variable of the previous iteration.
`svc` failure propagates as an uncaught exception: the local `messages` and
`metrics` are lost (there is no `try`/`except` around the API call). -/
def runLoop (svc : GenService) (exec : ToolExec) :
    Nat → Nat → List Message → Metrics → String → Except String RunResult
  | _, 0, messages, metrics, tr =>
      .ok ⟨messages, { metrics with final_response := tr }, .budgetExhausted⟩
  | turn, fuel + 1, messages, metrics, _ =>
      match svc messages with
      | .error e => .error e
      | .ok resp =>
        let metrics := turnMetrics turn metrics resp
        let messages := messages ++ [assistantMsg resp.content]
        if resp.stop_reason = "end_turn" ∨ toolUsesOf resp.content = [] then
          .ok ⟨messages, { metrics with final_response := lastTextOf resp.content },
            .naturalCompletion resp.stop_reason⟩
        else
          runLoop svc exec (turn + 1) fuel
            (messages ++ [toolResultsMsg exec resp.content]) metrics
            (lastTextOf resp.content)

/-- The `MAX_TURNS` constant of the source (line 62). -/
def MAX_TURNS : Nat := 5

/-- `messages` as initialised at lines 280-282: the single caller-supplied
user entry. -/
def initMessages (user_prompt : String) : List Message :=
  [⟨"user", .text user_prompt⟩]

/-- `run_agent(user_prompt)`: history starts as the single caller-supplied
user entry, then the loop runs for at most `max_turns` iterations.  In the
source `max_turns` is the constant `MAX_TURNS = 5`; it is a parameter here so
the turn budget can be quantified over. -/
def run_agent (svc : GenService) (exec : ToolExec) (max_turns : Nat)
    (user_prompt : String) : Except String RunResult :=
  runLoop svc exec 0 max_turns (initMessages user_prompt) initMetrics ""

/-- Outcome of the HTTP request made by `execute_tool`:
either a response object (status, body text, and the result of
`json.dumps(response.json())` — `Except.error` when `.json()` raises),
or a raised exception (`requests` failure, timeout, ...). -/
inductive HttpOutcome where
  | ok (status : Nat) (text : String) (jsonDump : Except String String)
  | exn (msg : String)
deriving Repr

/-- `execute_tool(tool_name, tool_input)` (lines 215-257): the single known
tool issues an HTTP request for `tool_input.get("profile_url", "")`; a 200
response returns the JSON dump, a non-200 response returns
`"API error {status}: {text[:200]}"`, and any exception inside the `try`
(including a JSON-decode failure) returns `"Exception: {e}"`.  Any other
tool name returns `"Unknown tool: {name}"`. -/
def execute_tool (http : String → HttpOutcome) (tool_name : String)
    (tool_input : List (String × String)) : String :=
  if tool_name = "fetch_linkedin_profile" then
    let profile_url := (List.lookup "profile_url" tool_input).getD ""
    match http profile_url with
    | .ok status text jsonDump =>
        if status = 200 then
          match jsonDump with
          | .ok body => body
          | .error m => "Exception: " ++ m
        else
          "API error " ++ toString status ++ ": " ++ text.take 200
    | .exn m => "Exception: " ++ m
  else
    "Unknown tool: " ++ tool_name

/-- Shape of the portion of `messages` appended by the loop: responder
(assistant) entries, each one either final or immediately followed by the
requester (user) entry holding exactly its tool results. -/
inductive GoodTrace (exec : ToolExec) : List Message → Prop where
  | nil : GoodTrace exec []
  | last (bs : List ContentBlock) : GoodTrace exec [assistantMsg bs]
  | cons (bs : List ContentBlock) (rest : List Message) :
      GoodTrace exec rest →
      GoodTrace exec (assistantMsg bs :: toolResultsMsg exec bs :: rest)

/-- The content blocks of the last assistant entry of a history, if any. -/
def lastAssistantBlocks (msgs : List Message) : Option (List ContentBlock) :=
  (msgs.filterMap fun m =>
    match m.content with
    | .assistantBlocks bs => some bs
    | _ => none).getLast?

/-- The tool-result blocks of one history entry (empty for other entries). -/
def resultBlocksOf (m : Message) : List ToolResultBlock :=
  match m.content with
  | .toolResults rs => rs
  | _ => []

/-- Relation between a history and the `text_response` variable: it equals
the last text block of the last assistant entry, or `""` when there is none. -/
def TextInv (msgs : List Message) (t : String) : Prop :=
  match lastAssistantBlocks msgs with
  | none => t = ""
  | some bs => t = lastTextOf bs

/-- A generation service that immediately answers with text and the
`end_turn` stop reason. -/
def svcEndTurnText : GenService := fun _ =>
  .ok ⟨[.text "All done."], "end_turn", 10, 5⟩

/-- A generation service that requests a tool call in every response. -/
def svcAlwaysTool : GenService := fun _ =>
  .ok ⟨[.toolUse ⟨"t1", "lookup", [("id", "x")]⟩], "tool_use", 1, 2⟩

/-- A generation service whose responses carry a `tool_use` block but a
`max_tokens` stop reason (neither `"end_turn"` nor `"tool_use"`). -/
def svcMaxTokensTool : GenService := fun _ =>
  .ok ⟨[.toolUse ⟨"t1", "lookup", []⟩], "max_tokens", 0, 0⟩

/-- A generation service that produces a text block only on the first turn
and afterwards keeps requesting tools with no text at all. -/
def svcTextThenToolOnly : GenService := fun msgs =>
  if msgs.length == 1 then
    .ok ⟨[.text "draft analysis", .toolUse ⟨"t1", "lookup", []⟩], "tool_use", 0, 0⟩
  else
    .ok ⟨[.toolUse ⟨"t2", "lookup", []⟩], "tool_use", 0, 0⟩

/-- A generation service whose HTTP request always fails. -/
def svcTransportFail : GenService := fun _ =>
  .error "transport error"

/-- A generation service that requests the LinkedIn tool on the first turn
and then finishes. -/
def svcToolThenEnd : GenService := fun msgs =>
  if msgs.length == 1 then
    .ok ⟨[.toolUse ⟨"toolu_01", "fetch_linkedin_profile", [("profile_url", "u")]⟩],
      "tool_use", 0, 0⟩
  else
    .ok ⟨[.text "done"], "end_turn", 0, 0⟩

/-- A tool executor that always succeeds with a fixed observation. -/
def execConst : ToolExec := fun _ _ => "found: Jane, Acme Corp"

/-- An HTTP transport that always raises (connection failure). -/
def httpDown : String → HttpOutcome := fun _ =>
  .exn "connection refused"

/-- The component being accumulated by `parse_react_components`
(`current_component` is `None`, `"thought"` or `"final_answer"`). -/
inductive ReactComp where
  | thought
  | finalAnswer
deriving Repr, DecidableEq

/-- Loop state of `parse_react_components`: `components["thoughts"]`,
`current_component` and `current_content`. -/
structure ReactAcc where
  thoughts : List String
  current : Option ReactComp
  content : List String
deriving Repr, DecidableEq

/-- The "save previous component" step (lines 148-149 and 154-155): a pending
thought is flushed; pending final-answer content is discarded. -/
def saveThought (acc : ReactAcc) : List String :=
  if acc.current = some ReactComp.thought ∧ acc.content ≠ [] then
    acc.thoughts ++ [pyStrip (String.intercalate " " acc.content)]
  else acc.thoughts

/-- One iteration of the `for line in lines` loop of
`parse_react_components` (lines 145-160). -/
def reactStep (acc : ReactAcc) (line : String) : ReactAcc :=
  if pyStartsWith line "Thought:" then
    ⟨saveThought acc, some ReactComp.thought, [pyStrip (pyDrop line 8)]⟩
  else if pyStartsWith line "Final Answer:" then
    ⟨saveThought acc, some ReactComp.finalAnswer, [pyStrip (pyDrop line 13)]⟩
  else if acc.current.isSome then
    ⟨acc.thoughts, acc.current, acc.content ++ [pyStrip line]⟩
  else
    acc

/-- The dict returned by `parse_react_components`. -/
structure ReactComponents where
  thoughts : List String
  final_answer : Option String
  raw_text : String
deriving Repr, DecidableEq

/-- `parse_react_components(text)` (lines 125-168): split on newlines, run
the component state machine, then save the last pending component
(a pending thought goes to `thoughts`, a pending final answer to
`final_answer`, lines 163-166). -/
def parse_react_components (text : String) : ReactComponents :=
  let acc := (pySplitLines text).foldl reactStep ⟨[], none, []⟩
  let thoughts :=
    if acc.current = some ReactComp.thought ∧ acc.content ≠ [] then
      acc.thoughts ++ [pyStrip (String.intercalate " " acc.content)]
    else acc.thoughts
  let fa :=
    if acc.current = some ReactComp.finalAnswer ∧ acc.content ≠ [] then
      some (pyStrip (String.intercalate " " acc.content))
    else none
  ⟨thoughts, fa, text⟩

end AgentRawApi

namespace ChainedOutreach

/-- One element of `profile["experiences"]`; `none` models a missing key
(dict subscript access raises `KeyError`). -/
structure Experience where
  company : Option String
  description : Option String
deriving Repr, DecidableEq

/-- The profile JSON as read by `extract_profile_data`.  `first_name` is
accessed by subscript (missing → `KeyError`, modelled by `none`); `industry`
uses `.get(...) or ""` (missing or null → `""`); `headline` uses
`.get("headline", "")`. -/
structure Profile where
  first_name : Option String
  experiences : List Experience
  industry : Option String
  headline : String
deriving Repr, DecidableEq

/-- The dict built by `extract_profile_data`. -/
structure ExtractedData where
  first_name : String
  company : String
  description : String
  is_tech : Bool
deriving Repr, DecidableEq

/-- Python's substring test `sub in s`. -/
def containsSub (s sub : String) : Bool :=
  decide (sub.data <:+: s.data)

/-- `extract_profile_data(profile)` (lines 56-90 of `chained_outreach.py`):
direct field access with no error handling — a missing field raises, which
the embedding returns as `Except.error`. -/
def extract_profile_data (p : Profile) : Except String ExtractedData :=
  match p.first_name with
  | none => .error "KeyError: 'first_name'"
  | some first_name =>
  match p.experiences.head? with
  | none => .error "IndexError: list index out of range"
  | some exp0 =>
  match exp0.company with
  | none => .error "KeyError: 'company'"
  | some company =>
  match exp0.description with
  | none => .error "KeyError: 'description'"
  | some description =>
    let industry := pyLower (p.industry.getD "")
    let headline := pyLower p.headline
    let company_lower := pyLower company
    let is_tech :=
      containsSub industry "tech" || containsSub industry "software" ||
      containsSub industry "computer" ||
      containsSub headline "tech" || containsSub headline "software" ||
      containsSub headline "ai" ||
      containsSub company_lower "nvidia" || containsSub company_lower "microsoft" ||
      containsSub company_lower "google"
    .ok ⟨first_name, company, description, is_tech⟩

/-- The dict returned by `chained_workflow`: `success`, `message` (success
path only), `error` (failure path only), and the input `url`. -/
structure WorkflowResult where
  success : Bool
  message : Option String
  error : Option String
  url : String
deriving Repr, DecidableEq

/-- `chained_workflow(linkedin_url)` (lines 163-205): the three steps run
sequentially inside one `try`; any step's exception is caught by the
`except Exception` handler and converted to a failure dict.  The two
HTTP/LLM-backed steps (`fetch_linkedin_profile`, `generate_outreach_message`)
are external collaborators passed as fallible functions. -/
def chained_workflow (fetch : String → Except String Profile)
    (genMsg : ExtractedData → Except String String)
    (linkedin_url : String) : WorkflowResult :=
  match fetch linkedin_url with
  | .error e => ⟨false, none, some e, linkedin_url⟩
  | .ok profile =>
    match extract_profile_data profile with
    | .error e => ⟨false, none, some e, linkedin_url⟩
    | .ok data =>
      match genMsg data with
      | .error e => ⟨false, none, some e, linkedin_url⟩
      | .ok message => ⟨true, some message, none, linkedin_url⟩

end ChainedOutreach

namespace HumanFeedback

/-- The structured `result` dict built in the interactive path of
`request_human_review` (lines 142-148 of `human_feedback.py`). -/
structure ReviewFeedback where
  rating : Nat
  feedback : Option String
  missing_info : Option String
  corrections : Option String
  approved : Bool
deriving Repr, DecidableEq

/-- Outcome of the interactive path: the 'skip' shortcut returns a canned
auto-approval text instead of a structured result. -/
inductive ReviewOutcome where
  | skipped
  | reviewed (fb : ReviewFeedback)
deriving Repr, DecidableEq

/-- `x if x.lower() not in ['none', 'n', ''] else None` (lines 144-146). -/
def cleanOptional (s : String) : Option String :=
  if pyLower s = "none" ∨ pyLower s = "n" ∨ s = "" then none else some s

/-- Lines 129-130: `int(rating) if rating.isdigit() else 3`, then
`max(1, min(5, rating_int))`.  For ASCII input, `String.toNat?` succeeds
exactly when `rating.isdigit()` holds, and then equals `int(rating)`. -/
def rating_int_of (rating : String) : Nat :=
  let parsed :=
    match pyParseNat? rating with
    | some n => n
    | none => 3
  max 1 (min 5 parsed)

/-- The interactive path of `request_human_review` (lines 111-148), as a
function of the four stripped console inputs.  Rating input `'skip'`
(case-insensitive) short-circuits to the auto-approve reply; otherwise the
structured feedback dict is built with the clamped rating and
`approved = rating_int >= 4`. -/
def request_human_review_interactive (rating feedback missing corrections :
    String) : ReviewOutcome :=
  let rating := pyStrip rating
  if pyLower rating = "skip" then
    .skipped
  else
    let rating_int := rating_int_of rating
    .reviewed ⟨rating_int, cleanOptional (pyStrip feedback),
      cleanOptional (pyStrip missing),
      cleanOptional (pyStrip corrections), decide (4 ≤ rating_int)⟩

end HumanFeedback

namespace AgentRawApi

/-! ## Loop lemmas -/

theorem runLoop_zero (svc : GenService) (exec : ToolExec) (turn : Nat)
    (msgs : List Message) (m : Metrics) (tr : String) :
    runLoop svc exec turn 0 msgs m tr =
      .ok ⟨msgs, { m with final_response := tr }, .budgetExhausted⟩ := rfl

theorem runLoop_succ_error {svc : GenService} (exec : ToolExec) {msgs : List Message}
    {e : String} (turn fuel : Nat) (m : Metrics) (tr : String)
    (hsvc : svc msgs = .error e) :
    runLoop svc exec turn (fuel + 1) msgs m tr = .error e := by
  simp only [runLoop, hsvc]

theorem runLoop_succ_stop {svc : GenService} (exec : ToolExec) {msgs : List Message}
    {resp : ApiResponse} (turn fuel : Nat) (m : Metrics) (tr : String)
    (hsvc : svc msgs = .ok resp)
    (hstop : resp.stop_reason = "end_turn" ∨ toolUsesOf resp.content = []) :
    runLoop svc exec turn (fuel + 1) msgs m tr =
      .ok ⟨msgs ++ [assistantMsg resp.content],
        { turnMetrics turn m resp with final_response := lastTextOf resp.content },
        .naturalCompletion resp.stop_reason⟩ := by
  simp only [runLoop, hsvc]
  rw [if_pos hstop]

theorem runLoop_succ_continue {svc : GenService} (exec : ToolExec)
    {msgs : List Message} {resp : ApiResponse} (turn fuel : Nat) (m : Metrics)
    (tr : String) (hsvc : svc msgs = .ok resp)
    (hstop : ¬(resp.stop_reason = "end_turn" ∨ toolUsesOf resp.content = [])) :
    runLoop svc exec turn (fuel + 1) msgs m tr =
      runLoop svc exec (turn + 1) fuel
        ((msgs ++ [assistantMsg resp.content]) ++ [toolResultsMsg exec resp.content])
        (turnMetrics turn m resp) (lastTextOf resp.content) := by
  simp only [runLoop, hsvc]
  rw [if_neg hstop]

theorem lastAssistantBlocks_append_assistant (msgs : List Message)
    (bs : List ContentBlock) :
    lastAssistantBlocks (msgs ++ [assistantMsg bs]) = some bs := by
  unfold lastAssistantBlocks assistantMsg
  rw [List.filterMap_append]
  simp

theorem lastAssistantBlocks_append_results (msgs : List Message)
    (exec : ToolExec) (bs : List ContentBlock) :
    lastAssistantBlocks (msgs ++ [toolResultsMsg exec bs]) =
      lastAssistantBlocks msgs := by
  unfold lastAssistantBlocks toolResultsMsg
  rw [List.filterMap_append]
  simp

theorem runLoop_ok_spec (svc : GenService) (exec : ToolExec) :
    ∀ (fuel turn : Nat) (msgs : List Message) (m : Metrics) (tr : String)
      (r : RunResult),
      runLoop svc exec turn fuel msgs m tr = Except.ok r →
      ∃ k suffix,
        r.metrics.turns = m.turns + k ∧
        r.metrics.api_calls.length = m.api_calls.length + k ∧
        k ≤ fuel ∧
        (1 ≤ fuel → 1 ≤ k) ∧
        (1 ≤ k → (lastAssistantBlocks r.messages).isSome = true) ∧
        r.messages = msgs ++ suffix ∧
        GoodTrace exec suffix ∧
        (match r.exit with
          | LoopExit.naturalCompletion _ => suffix.length + 1 = 2 * k
          | LoopExit.budgetExhausted => suffix.length = 2 * k ∧ k = fuel) ∧
        (TextInv msgs tr → TextInv r.messages r.metrics.final_response) := by
  intro fuel
  induction fuel with
  | zero =>
    intro turn msgs m tr r h
    rw [runLoop_zero] at h
    injection h with h
    subst h
    refine ⟨0, [], rfl, rfl, le_refl 0, by omega, by omega, by simp, .nil, ?_, ?_⟩
    · simp
    · intro hinv
      exact hinv
  | succ fuel ih =>
    intro turn msgs m tr r h
    cases hsvc : svc msgs with
    | error e =>
      rw [runLoop_succ_error exec turn fuel m tr hsvc] at h
      exact Except.noConfusion h
    | ok resp =>
      by_cases hstop : resp.stop_reason = "end_turn" ∨ toolUsesOf resp.content = []
      · rw [runLoop_succ_stop exec turn fuel m tr hsvc hstop] at h
        injection h with h
        subst h
        refine ⟨1, [assistantMsg resp.content], ?_, ?_, by omega, fun _ => le_refl 1,
          ?_, rfl, .last resp.content, ?_, ?_⟩
        · simp [turnMetrics]
        · simp [turnMetrics]
        · intro _
          rw [lastAssistantBlocks_append_assistant]
          rfl
        · simp
        · intro _
          unfold TextInv
          rw [lastAssistantBlocks_append_assistant]
      · rw [runLoop_succ_continue exec turn fuel m tr hsvc hstop] at h
        obtain ⟨k, suffix, h1, h2, h3, h4, h5, h6, h7, h8, h9⟩ :=
          ih (turn + 1) _ _ _ r h
        refine ⟨k + 1,
          assistantMsg resp.content :: toolResultsMsg exec resp.content :: suffix,
          ?_, ?_, by omega, fun _ => by omega, ?_, ?_, .cons resp.content suffix h7,
          ?_, ?_⟩
        · rw [h1]; simp [turnMetrics]; omega
        · rw [h2]; simp [turnMetrics]; omega
        · intro _
          rcases Nat.eq_zero_or_pos k with hk | hk
          · subst hk
            rcases h8' : r.exit with s | _
            · rw [h8'] at h8; omega
            · rw [h8'] at h8
              have hsuf : suffix = [] := List.eq_nil_of_length_eq_zero (by omega)
              rw [h6, hsuf, List.append_nil, lastAssistantBlocks_append_results,
                lastAssistantBlocks_append_assistant]
              rfl
          · exact h5 hk
        · rw [h6]; simp
        · rcases h8' : r.exit with s | _ <;> rw [h8'] at h8 <;> simp <;> omega
        · intro _
          apply h9
          unfold TextInv
          rw [lastAssistantBlocks_append_results, lastAssistantBlocks_append_assistant]

theorem runLoop_always_tool (svc : GenService) (exec : ToolExec)
    (halways : ∀ msgs resp, svc msgs = Except.ok resp →
      ¬(resp.stop_reason = "end_turn" ∨ toolUsesOf resp.content = []))
    (htotal : ∀ msgs, ∃ resp, svc msgs = Except.ok resp) :
    ∀ (fuel turn : Nat) (msgs : List Message) (m : Metrics) (tr : String),
      ∃ r, runLoop svc exec turn fuel msgs m tr = Except.ok r ∧
        r.exit = LoopExit.budgetExhausted ∧
        r.metrics.turns = m.turns + fuel ∧
        r.metrics.api_calls.length = m.api_calls.length + fuel := by
  intro fuel
  induction fuel with
  | zero =>
    intro turn msgs m tr
    exact ⟨_, runLoop_zero svc exec turn msgs m tr, rfl, rfl, rfl⟩
  | succ fuel ih =>
    intro turn msgs m tr
    obtain ⟨resp, hsvc⟩ := htotal msgs
    obtain ⟨r, hr, hexit, hturns, hcalls⟩ :=
      ih (turn + 1)
        ((msgs ++ [assistantMsg resp.content]) ++ [toolResultsMsg exec resp.content])
        (turnMetrics turn m resp) (lastTextOf resp.content)
    refine ⟨r, ?_, hexit, ?_, ?_⟩
    · rw [runLoop_succ_continue exec turn fuel m tr hsvc (halways _ _ hsvc)]
      exact hr
    · rw [hturns]; simp [turnMetrics]; omega
    · rw [hcalls]; simp [turnMetrics]; omega

theorem runLoop_isOk_of_total (svc : GenService) (exec : ToolExec)
    (htotal : ∀ msgs, ∃ resp, svc msgs = Except.ok resp) :
    ∀ (fuel turn : Nat) (msgs : List Message) (m : Metrics) (tr : String),
      ∃ r, runLoop svc exec turn fuel msgs m tr = Except.ok r := by
  intro fuel
  induction fuel with
  | zero =>
    intro turn msgs m tr
    exact ⟨_, runLoop_zero svc exec turn msgs m tr⟩
  | succ fuel ih =>
    intro turn msgs m tr
    obtain ⟨resp, hsvc⟩ := htotal msgs
    by_cases hstop : resp.stop_reason = "end_turn" ∨ toolUsesOf resp.content = []
    · exact ⟨_, runLoop_succ_stop exec turn fuel m tr hsvc hstop⟩
    · obtain ⟨r, hr⟩ :=
        ih (turn + 1)
          ((msgs ++ [assistantMsg resp.content]) ++ [toolResultsMsg exec resp.content])
          (turnMetrics turn m resp) (lastTextOf resp.content)
      exact ⟨r, by
        rw [runLoop_succ_continue exec turn fuel m tr hsvc hstop]; exact hr⟩

theorem goodTrace_pair (exec : ToolExec) :
    ∀ (l : List Message), GoodTrace exec l →
      ∀ (j : Nat) (rs : List ToolResultBlock),
        l.get? j = some ⟨"user", MessageContent.toolResults rs⟩ →
        ∃ bs, 1 ≤ j ∧ l.get? (j - 1) = some (assistantMsg bs) ∧
          rs = resultsFor exec bs := by
  intro l hl
  induction hl with
  | nil =>
    intro j rs h
    simp at h
  | last bs =>
    intro j rs h
    cases j with
    | zero => simp [assistantMsg] at h
    | succ j => simp at h
  | cons bs rest hrest ih =>
    intro j rs h
    cases j with
    | zero => simp [assistantMsg] at h
    | succ j =>
      cases j with
      | zero =>
        refine ⟨bs, le_refl 1, by simp, ?_⟩
        simp [toolResultsMsg] at h
        exact h.symm
      | succ j =>
        have h' : rest.get? j = some ⟨"user", MessageContent.toolResults rs⟩ := by
          simpa using h
        obtain ⟨bs', hj, hget, heq⟩ := ih j rs h'
        obtain ⟨j', rfl⟩ : ∃ j', j = j' + 1 := ⟨j - 1, by omega⟩
        refine ⟨bs', by omega, ?_, heq⟩
        simpa using hget

theorem goodTrace_results_no_error (exec : ToolExec) :
    ∀ (l : List Message), GoodTrace exec l →
      ∀ msg ∈ l, ∀ rb ∈ resultBlocksOf msg, rb.is_error = none := by
  intro l hl
  induction hl with
  | nil => simp
  | last bs =>
    intro msg hmsg rb hrb
    simp at hmsg
    subst hmsg
    simp [resultBlocksOf, assistantMsg] at hrb
  | cons bs rest hrest ih =>
    intro msg hmsg rb hrb
    rcases List.mem_cons.mp hmsg with hmsg | hmsg
    · subst hmsg
      simp [resultBlocksOf, assistantMsg] at hrb
    · rcases List.mem_cons.mp hmsg with hmsg | hmsg
      · subst hmsg
        simp only [resultBlocksOf, toolResultsMsg, resultsFor] at hrb
        obtain ⟨b, _, hb⟩ := List.mem_map.mp hrb
        rw [← hb]
      · exact ih msg hmsg rb hrb

/-! ## Claims -/

/-- C1, counterexample: a run that completes naturally on its first turn has
`turns_taken = 1` but a history of length 2 (initial entry + one responder
entry), not `2 * 1 + 1 = 3` as the claim's formula demands: on the final
turn the loop appends only the responder entry before breaking. -/
theorem C1_counterexample :
    (run_agent svcEndTurnText execConst 5 "p").map
        (fun r => (r.messages.length, r.metrics.turns)) = Except.ok (2, 1) ∧
    ¬((2 : Nat) = 2 * 1 + 1) :=
  ⟨rfl, by decide⟩

/-- C1, amended: at loop exit the history length is `2 * turns_taken + 1`
(the caller-supplied entry included) when the loop exits by budget
exhaustion, and `2 * turns_taken` when it exits by natural completion,
because the final turn then appends only the responder entry. -/
theorem C1_history_length (svc : GenService) (exec : ToolExec) (mt : Nat)
    (p : String) (r : RunResult)
    (hr : run_agent svc exec mt p = Except.ok r) :
    r.messages.length =
      (match r.exit with
        | LoopExit.naturalCompletion _ => 2 * r.metrics.turns
        | LoopExit.budgetExhausted => 2 * r.metrics.turns + 1) := by
  unfold run_agent at hr
  obtain ⟨k, suffix, h1, _, _, _, _, h6, _, h8, _⟩ :=
    runLoop_ok_spec svc exec mt 0 _ _ _ r hr
  rw [h6]
  have h1' : r.metrics.turns = k := by simpa [initMetrics] using h1
  rcases h8' : r.exit with s | _ <;> rw [h8'] at h8 <;>
    simp [initMessages, h1'] <;> omega

/-- C1 witness: the two-turn natural-completion run has history length 4 and
`turns_taken = 2`. -/
theorem C1_witness :
    ∃ r, run_agent svcToolThenEnd execConst 5 "p" = Except.ok r ∧
      r.messages.length =
        (match r.exit with
          | LoopExit.naturalCompletion _ => 2 * r.metrics.turns
          | LoopExit.budgetExhausted => 2 * r.metrics.turns + 1) :=
  ⟨_, rfl, C1_history_length svcToolThenEnd execConst 5 "p" _ rfl⟩

/-- C2: if the generation service always succeeds and always requests a tool
call (a response whose stop reason is not `"end_turn"` and that carries at
least one `tool_use` block), the loop runs exactly `max_turns` turns, records
exactly `max_turns` generation-service calls, and exits through the distinct
budget-exhausted path (range exhaustion, not the `break`); moreover no run
whatsoever makes more than `max_turns` generation-service calls. -/
theorem C2_budget_exhaustion (svc : GenService) (exec : ToolExec) (mt : Nat)
    (p : String)
    (halways : ∀ msgs resp, svc msgs = Except.ok resp →
      ¬(resp.stop_reason = "end_turn" ∨ toolUsesOf resp.content = []))
    (htotal : ∀ msgs, ∃ resp, svc msgs = Except.ok resp) :
    (∃ r, run_agent svc exec mt p = Except.ok r ∧
      r.exit = LoopExit.budgetExhausted ∧
      r.metrics.turns = mt ∧
      r.metrics.api_calls.length = mt) ∧
    (∀ (svc' : GenService) (exec' : ToolExec) (p' : String) (r' : RunResult),
      run_agent svc' exec' mt p' = Except.ok r' →
      r'.metrics.api_calls.length ≤ mt) := by
  constructor
  · obtain ⟨r, hr, he, ht, hc⟩ :=
      runLoop_always_tool svc exec halways htotal mt 0 (initMessages p)
        initMetrics ""
    exact ⟨r, hr, he, by simpa [initMetrics] using ht,
      by simpa [initMetrics] using hc⟩
  · intro svc' exec' p' r' hr'
    unfold run_agent at hr'
    obtain ⟨k, _, _, h2, h3, _⟩ := runLoop_ok_spec svc' exec' mt 0 _ _ _ r' hr'
    have h2' : r'.metrics.api_calls.length = k := by simpa [initMetrics] using h2
    omega

/-- C2 witness: with a service that requests `lookup` on every turn and
`MAX_TURNS = 5`, the run exits budget-exhausted with 5 turns and 5 calls. -/
theorem C2_witness :
    ∃ r, run_agent svcAlwaysTool execConst MAX_TURNS "p" = Except.ok r ∧
      r.exit = LoopExit.budgetExhausted ∧
      r.metrics.turns = MAX_TURNS ∧
      r.metrics.api_calls.length = MAX_TURNS :=
  (C2_budget_exhaustion svcAlwaysTool execConst MAX_TURNS "p"
    (by intro msgs resp h
        simp only [svcAlwaysTool] at h
        injection h with h
        subst h
        decide)
    (fun msgs => ⟨_, rfl⟩)).1

/-- C3, counterexample: when the generation-service request raises, the
exception propagates unchanged — two runs whose partial histories differ
(different initial prompts) surface the identical failure value, so the
failure carries neither the partial history nor the metrics. -/
theorem C3_counterexample :
    run_agent svcTransportFail execConst 5 "prompt A" =
      Except.error "transport error" ∧
    run_agent svcTransportFail execConst 5 "prompt B" =
      Except.error "transport error" ∧
    initMessages "prompt A" ≠ initMessages "prompt B" :=
  ⟨rfl, rfl, by decide⟩

/-- C3, amended: a generation-service failure propagates uncaught to the
caller as the raised error itself, with no internal retry (the run ends at
the failing call no matter how much turn budget remains); the partial
history and metrics are local variables of `run_agent` and are lost. -/
theorem C3_error_propagates (svc : GenService) (exec : ToolExec) (mt : Nat)
    (p e : String) (hmt : 1 ≤ mt)
    (hsvc : svc (initMessages p) = Except.error e) :
    run_agent svc exec mt p = Except.error e := by
  obtain ⟨fuel, rfl⟩ : ∃ f, mt = f + 1 := ⟨mt - 1, by omega⟩
  unfold run_agent
  exact runLoop_succ_error exec 0 fuel initMetrics "" hsvc

/-- C3 witness: a transport failure on the first call is surfaced as that
error with a budget of 5 turns remaining. -/
theorem C3_witness :
    (1 : Nat) ≤ 5 ∧
    run_agent svcTransportFail execConst 5 "p" =
      Except.error "transport error" :=
  ⟨by decide, C3_error_propagates svcTransportFail execConst 5 "p"
    "transport error" (by decide) rfl⟩

/-- C4, counterexample: in a run whose only tool call fails with a transport
exception, the appended `tool_result` block carries the error text as plain
content with no `is_error` key at all (`none`), not `is_error = true` as the
claim states. -/
theorem C4_counterexample :
    (run_agent svcToolThenEnd (execute_tool httpDown) 5 "p").map
        (fun r => r.messages.filterMap fun m =>
          match m.content with
          | MessageContent.toolResults rs =>
              some (rs.map fun rb => (rb.content, rb.is_error))
          | _ => none) =
      Except.ok [[("Exception: connection refused", (none : Option Bool))]] ∧
    (none : Option Bool) ≠ some true :=
  ⟨rfl, by decide⟩

/-- C4, amended: every failing tool call (transport exception, non-success
HTTP status) and every unknown tool is converted by `execute_tool` into a
plain result string with a human-readable message; the resulting
`tool_result` block never sets an `is_error` key; tool failures are never
fatal (whenever every generation-service call succeeds the run returns
normally), and each turn's results — error text included — are appended as
the next requester entry of the history the service sees. -/
theorem C4_tool_failures_feed_back (svc : GenService)
    (http : String → HttpOutcome) (mt : Nat) (p : String)
    (htotal : ∀ msgs, ∃ resp, svc msgs = Except.ok resp) :
    (∃ r, run_agent svc (execute_tool http) mt p = Except.ok r ∧
      (∀ msg ∈ r.messages, ∀ rb ∈ resultBlocksOf msg, rb.is_error = none) ∧
      ∃ suffix, r.messages = initMessages p ++ suffix ∧
        GoodTrace (execute_tool http) suffix) ∧
    (∀ (input : List (String × String)) (m' : String),
      http ((List.lookup "profile_url" input).getD "") = HttpOutcome.exn m' →
      execute_tool http "fetch_linkedin_profile" input = "Exception: " ++ m') ∧
    (∀ (input : List (String × String)) (st : Nat) (tx : String)
        (j : Except String String),
      st ≠ 200 →
      http ((List.lookup "profile_url" input).getD "") = HttpOutcome.ok st tx j →
      execute_tool http "fetch_linkedin_profile" input =
        "API error " ++ toString st ++ ": " ++ tx.take 200) ∧
    (∀ (tname : String) (input : List (String × String)),
      tname ≠ "fetch_linkedin_profile" →
      execute_tool http tname input = "Unknown tool: " ++ tname) := by
  refine ⟨?_, ?_, ?_, ?_⟩
  · obtain ⟨r, hr⟩ :=
      runLoop_isOk_of_total svc (execute_tool http) htotal mt 0
        (initMessages p) initMetrics ""
    obtain ⟨k, suffix, _, _, _, _, _, h6, h7, _, _⟩ :=
      runLoop_ok_spec svc (execute_tool http) mt 0 _ _ _ r hr
    refine ⟨r, hr, ?_, suffix, h6, h7⟩
    intro msg hmsg rb hrb
    rw [h6] at hmsg
    rcases List.mem_append.mp hmsg with hmsg | hmsg
    · simp only [initMessages, List.mem_singleton] at hmsg
      subst hmsg
      simp [resultBlocksOf] at hrb
    · exact goodTrace_results_no_error (execute_tool http) suffix h7 msg hmsg rb hrb
  · intro input m' hhttp
    simp [execute_tool, hhttp]
  · intro input st tx j hst hhttp
    simp [execute_tool, hhttp, hst]
  · intro tname input hname
    simp [execute_tool, hname]

/-- C4 witness: a run against a dead HTTP transport returns normally, with
every result block unflagged and the error text paired back to its request
in the following requester entry. -/
theorem C4_witness :
    ∃ r, run_agent svcToolThenEnd (execute_tool httpDown) 5 "p" = Except.ok r ∧
      (∀ msg ∈ r.messages, ∀ rb ∈ resultBlocksOf msg, rb.is_error = none) ∧
      ∃ suffix, r.messages = initMessages "p" ++ suffix ∧
        GoodTrace (execute_tool httpDown) suffix :=
  (C4_tool_failures_feed_back svcToolThenEnd httpDown 5 "p"
    (fun msgs => by
      simp only [svcToolThenEnd]
      split <;> exact ⟨_, rfl⟩)).1

/-- C5, counterexample: a response whose stop reason is `"max_tokens"` (a
value other than the tool-call-pending `"tool_use"`) but which carries a
`tool_use` block does not end the loop: the run continues for all 5 turns.
The claim says any stop reason other than tool-call-pending stops the loop
at that turn. -/
theorem C5_counterexample :
    (run_agent svcMaxTokensTool execConst 5 "p").map
        (fun r => (r.metrics.turns, r.metrics.api_calls.map fun c => c.stop_reason)) =
      Except.ok (5, ["max_tokens", "max_tokens", "max_tokens",
        "max_tokens", "max_tokens"]) ∧
    (5 : Nat) ≠ 1 ∧ "max_tokens" ≠ "tool_use" :=
  ⟨rfl, by decide, by decide⟩

/-- C5, amended: the loop stops at a response — treating it as natural
completion and recording its stop reason — exactly when the stop reason
equals the literal `"end_turn"` or the response has no `tool_use` block;
shown here for the first response of any run with budget for at least two
turns. -/
theorem C5_stop_condition (svc : GenService) (exec : ToolExec) (mt : Nat)
    (p : String) (resp : ApiResponse) (r : RunResult)
    (hmt : 2 ≤ mt)
    (hresp : svc (initMessages p) = Except.ok resp)
    (hr : run_agent svc exec mt p = Except.ok r) :
    (resp.stop_reason = "end_turn" ∨ toolUsesOf resp.content = []) ↔
      (r.metrics.turns = 1 ∧ r.exit = LoopExit.naturalCompletion resp.stop_reason) := by
  obtain ⟨fuel, rfl⟩ : ∃ f, mt = f + 1 := ⟨mt - 1, by omega⟩
  unfold run_agent at hr
  constructor
  · intro hstop
    rw [runLoop_succ_stop exec 0 fuel initMetrics "" hresp hstop] at hr
    injection hr with hr
    subst hr
    exact ⟨by simp [turnMetrics, initMetrics], rfl⟩
  · rintro ⟨hturns, _⟩
    by_contra hstop
    rw [runLoop_succ_continue exec 0 fuel initMetrics "" hresp hstop] at hr
    obtain ⟨k, _, h1, _, _, h4, _⟩ := runLoop_ok_spec svc exec fuel 1 _ _ _ r hr
    have hk : 1 ≤ k := h4 (by omega)
    have h1' : r.metrics.turns = 1 + k := by simpa [turnMetrics, initMetrics] using h1
    omega

/-- C5 witness: an immediate `"end_turn"` text response stops the loop after
exactly one turn with the natural-completion exit. -/
theorem C5_witness :
    ∃ r, run_agent svcEndTurnText execConst 5 "p" = Except.ok r ∧
      ((("end_turn" : String) = "end_turn" ∨
          toolUsesOf [ContentBlock.text "All done."] = []) ↔
        (r.metrics.turns = 1 ∧
          r.exit = LoopExit.naturalCompletion "end_turn")) :=
  ⟨_, rfl, C5_stop_condition svcEndTurnText execConst 5 "p"
    ⟨[ContentBlock.text "All done."], "end_turn", 10, 5⟩ _
    (by decide) rfl rfl⟩

/-- C6: in every successful run, each requester entry of tool results sits
immediately after a responder entry, and its result blocks are exactly one
per `tool_use` block of that responder entry, in order, each carrying that
request's id — so the id lists coincide (equal multisets in equal order: no
orphans), and distinct request ids give distinct result ids (no duplicates). -/
theorem C6_results_pair_requests (svc : GenService) (exec : ToolExec)
    (mt : Nat) (p : String) (r : RunResult)
    (hr : run_agent svc exec mt p = Except.ok r) :
    ∀ (j : Nat) (rs : List ToolResultBlock),
      r.messages.get? j = some ⟨"user", MessageContent.toolResults rs⟩ →
      ∃ bs, 1 ≤ j ∧ r.messages.get? (j - 1) = some (assistantMsg bs) ∧
        rs = resultsFor exec bs ∧
        rs.map (fun rb => rb.tool_use_id) = (toolUsesOf bs).map (fun b => b.id) ∧
        rs.length = (toolUsesOf bs).length ∧
        (((toolUsesOf bs).map fun b => b.id).Nodup →
          (rs.map fun rb => rb.tool_use_id).Nodup) := by
  intro j rs hj
  unfold run_agent at hr
  obtain ⟨k, suffix, _, _, _, _, _, h6, h7, _, _⟩ :=
    runLoop_ok_spec svc exec mt 0 _ _ _ r hr
  rw [h6] at hj ⊢
  cases j with
  | zero => simp [initMessages] at hj
  | succ j =>
    have hj' : suffix.get? j = some ⟨"user", MessageContent.toolResults rs⟩ := by
      simpa [initMessages] using hj
    obtain ⟨bs, h1j, hget, heq⟩ := goodTrace_pair exec suffix h7 j rs hj'
    obtain ⟨j', rfl⟩ : ∃ j'', j = j'' + 1 := ⟨j - 1, by omega⟩
    have hmap : rs.map (fun rb => rb.tool_use_id) =
        (toolUsesOf bs).map (fun b => b.id) := by
      rw [heq]
      simp [resultsFor]
    refine ⟨bs, by omega, ?_, heq, hmap, ?_, fun hnd => hmap ▸ hnd⟩
    · simpa [initMessages] using hget
    · rw [heq]; simp [resultsFor]

/-- C6 witness: in the two-turn run the requester entry at index 2 pairs the
single result (id `toolu_01`) with the single request of the responder entry
at index 1. -/
theorem C6_witness :
    ∃ r, run_agent svcToolThenEnd execConst 5 "p" = Except.ok r ∧
      ∃ bs, (1 : Nat) ≤ 2 ∧ r.messages.get? (2 - 1) = some (assistantMsg bs) ∧
        [ToolResultBlock.mk "toolu_01" "found: Jane, Acme Corp" none] =
          resultsFor execConst bs ∧
        [ToolResultBlock.mk "toolu_01" "found: Jane, Acme Corp" none].map
            (fun rb => rb.tool_use_id) = (toolUsesOf bs).map (fun b => b.id) ∧
        [ToolResultBlock.mk "toolu_01" "found: Jane, Acme Corp" none].length =
          (toolUsesOf bs).length ∧
        (((toolUsesOf bs).map fun b => b.id).Nodup →
          ([ToolResultBlock.mk "toolu_01" "found: Jane, Acme Corp" none].map
            fun rb => rb.tool_use_id).Nodup) :=
  ⟨_, rfl, C6_results_pair_requests svcToolThenEnd execConst 5 "p" _ rfl 2
    [ToolResultBlock.mk "toolu_01" "found: Jane, Acme Corp" none] rfl⟩

/-- C7, counterexample: turn 1 produces the text block `"draft analysis"`
alongside a tool request, the remaining turns produce no text, and the run
exhausts its budget — the returned final text is `""`, not the latest text
segment available from any turn, because `text_response` is reset to `""` on
every iteration. -/
theorem C7_counterexample :
    (run_agent svcTextThenToolOnly execConst 5 "p").map
        (fun r => (r.metrics.final_response, r.exit)) =
      Except.ok ("", LoopExit.budgetExhausted) ∧
    (run_agent svcTextThenToolOnly execConst 5 "p").map
        (fun r => r.messages.get? 1) =
      Except.ok (some (assistantMsg
        [ContentBlock.text "draft analysis",
         ContentBlock.toolUse ⟨"t1", "lookup", []⟩])) ∧
    ("" : String) ≠ "draft analysis" :=
  ⟨rfl, rfl, by decide⟩

/-- C7, amended: the returned final text is the last text segment of the
final turn's response only — the empty string when the final turn's response
carries no text segment — since `text_response` is re-initialised on every
turn; text from earlier turns is discarded. -/
theorem C7_final_text (svc : GenService) (exec : ToolExec) (mt : Nat)
    (p : String) (r : RunResult)
    (hmt : 1 ≤ mt) (hr : run_agent svc exec mt p = Except.ok r) :
    ∃ bs, lastAssistantBlocks r.messages = some bs ∧
      r.metrics.final_response = lastTextOf bs := by
  unfold run_agent at hr
  obtain ⟨k, suffix, _, _, _, h4, h5, _, _, _, h9⟩ :=
    runLoop_ok_spec svc exec mt 0 _ _ _ r hr
  have hsome := h5 (h4 hmt)
  have hinv : TextInv r.messages r.metrics.final_response := by
    apply h9
    simp [TextInv, lastAssistantBlocks, initMessages]
  unfold TextInv at hinv
  cases hlab : lastAssistantBlocks r.messages with
  | none => rw [hlab] at hsome; simp at hsome
  | some bs =>
    rw [hlab] at hinv
    exact ⟨bs, rfl, hinv⟩

/-- C7 witness: in the two-turn run the final turn's response is the single
text block `"done"`, and that is the returned final text. -/
theorem C7_witness :
    ∃ r, run_agent svcToolThenEnd execConst 5 "p" = Except.ok r ∧
      ∃ bs, lastAssistantBlocks r.messages = some bs ∧
        r.metrics.final_response = lastTextOf bs :=
  ⟨_, rfl, C7_final_text svcToolThenEnd execConst 5 "p" _ (by decide) rfl⟩

/-- C8: `parse_react_components` is total (a plain function here), returns
the input unchanged in `raw_text`, and when no line of the input starts with
`"Thought:"` and none starts with `"Final Answer:"`, the resulting
`thoughts` list is empty and `final_answer` is `None`. -/
theorem C8_parse_react (s : String) :
    (parse_react_components s).raw_text = s ∧
    ((∀ l ∈ pySplitLines s, pyStartsWith l "Thought:" = false ∧
        pyStartsWith l "Final Answer:" = false) →
      (parse_react_components s).thoughts = [] ∧
      (parse_react_components s).final_answer = none) := by
  refine ⟨rfl, ?_⟩
  intro h
  have hfold : (pySplitLines s).foldl reactStep ⟨[], none, []⟩ = ⟨[], none, []⟩ := by
    generalize pySplitLines s = ls at h
    induction ls with
    | nil => rfl
    | cons a ls ih =>
      have ha := h a (List.mem_cons_self a ls)
      rw [List.foldl_cons]
      have hstep : reactStep ⟨[], none, []⟩ a = ⟨[], none, []⟩ := by
        unfold reactStep
        rw [ha.1, ha.2]
        simp
      rw [hstep]
      exact ih fun l hl => h l (List.mem_cons_of_mem a hl)
  unfold parse_react_components
  rw [hfold]
  exact ⟨by simp, by simp⟩

/-- C8 witness: on the marker-free input `"hello\nworld"` the parser keeps
the raw text, collects no thoughts and no final answer. -/
theorem C8_witness :
    (parse_react_components "hello\nworld").raw_text = "hello\nworld" ∧
    (parse_react_components "hello\nworld").thoughts = [] ∧
    (parse_react_components "hello\nworld").final_answer = none := by
  have h := C8_parse_react "hello\nworld"
  have h2 := h.2 (by decide)
  exact ⟨h.1, h2.1, h2.2⟩

end AgentRawApi

theorem chained_workflow_fetch_error
    (fetch : String → Except String ChainedOutreach.Profile)
    (genMsg : ChainedOutreach.ExtractedData → Except String String)
    (url e : String) (hf : fetch url = Except.error e) :
    ChainedOutreach.chained_workflow fetch genMsg url =
      ⟨false, none, some e, url⟩ := by
  unfold ChainedOutreach.chained_workflow
  rw [hf]

theorem chained_workflow_extract_error
    (fetch : String → Except String ChainedOutreach.Profile)
    (genMsg : ChainedOutreach.ExtractedData → Except String String)
    (url : String) (profile : ChainedOutreach.Profile) (e : String)
    (hf : fetch url = Except.ok profile)
    (hx : ChainedOutreach.extract_profile_data profile = Except.error e) :
    ChainedOutreach.chained_workflow fetch genMsg url =
      ⟨false, none, some e, url⟩ := by
  unfold ChainedOutreach.chained_workflow
  simp only [hf, hx]

theorem chained_workflow_generate_error
    (fetch : String → Except String ChainedOutreach.Profile)
    (genMsg : ChainedOutreach.ExtractedData → Except String String)
    (url : String) (profile : ChainedOutreach.Profile)
    (data : ChainedOutreach.ExtractedData) (e : String)
    (hf : fetch url = Except.ok profile)
    (hx : ChainedOutreach.extract_profile_data profile = Except.ok data)
    (hg : genMsg data = Except.error e) :
    ChainedOutreach.chained_workflow fetch genMsg url =
      ⟨false, none, some e, url⟩ := by
  unfold ChainedOutreach.chained_workflow
  simp only [hf, hx, hg]

theorem chained_workflow_success
    (fetch : String → Except String ChainedOutreach.Profile)
    (genMsg : ChainedOutreach.ExtractedData → Except String String)
    (url : String) (profile : ChainedOutreach.Profile)
    (data : ChainedOutreach.ExtractedData) (message : String)
    (hf : fetch url = Except.ok profile)
    (hx : ChainedOutreach.extract_profile_data profile = Except.ok data)
    (hg : genMsg data = Except.ok message) :
    ChainedOutreach.chained_workflow fetch genMsg url =
      ⟨true, some message, none, url⟩ := by
  unfold ChainedOutreach.chained_workflow
  simp only [hf, hx, hg]

/-- C9: `chained_workflow` is total (never propagates an exception): every
result carries the input `url`, `error` is present exactly on failure,
`message` exactly on success, and a failing step — here a failing profile
fetch — is converted into a `success = false` result holding the error
string. -/
theorem C9_chained_workflow_safe
    (fetch : String → Except String ChainedOutreach.Profile)
    (genMsg : ChainedOutreach.ExtractedData → Except String String)
    (url : String) :
    (ChainedOutreach.chained_workflow fetch genMsg url).url = url ∧
    ((ChainedOutreach.chained_workflow fetch genMsg url).error.isSome =
      !(ChainedOutreach.chained_workflow fetch genMsg url).success) ∧
    ((ChainedOutreach.chained_workflow fetch genMsg url).message.isSome =
      (ChainedOutreach.chained_workflow fetch genMsg url).success) ∧
    (∀ e, fetch url = Except.error e →
      ChainedOutreach.chained_workflow fetch genMsg url =
        ⟨false, none, some e, url⟩) := by
  cases hf : fetch url with
  | error e =>
    rw [chained_workflow_fetch_error fetch genMsg url e hf]
    refine ⟨rfl, rfl, rfl, ?_⟩
    intro e' he'
    injection he' with he'
    rw [he']
  | ok profile =>
    cases hx : ChainedOutreach.extract_profile_data profile with
    | error e2 =>
      rw [chained_workflow_extract_error fetch genMsg url
        profile e2 hf hx]
      exact ⟨rfl, rfl, rfl, fun e' he' => Except.noConfusion he'⟩
    | ok data =>
      cases hg : genMsg data with
      | error e3 =>
        rw [chained_workflow_generate_error fetch genMsg url
          profile data e3 hf hx hg]
        exact ⟨rfl, rfl, rfl, fun e' he' => Except.noConfusion he'⟩
      | ok message =>
        rw [chained_workflow_success fetch genMsg url
          profile data message hf hx hg]
        exact ⟨rfl, rfl, rfl, fun e' he' => Except.noConfusion he'⟩

/-- C9 witness: a fetch that raises `"boom"` yields the failure dict with the
error string and the input url. -/
theorem C9_witness :
    (ChainedOutreach.chained_workflow (fun _ => Except.error "boom")
        (fun _ => Except.ok "msg") "u").url = "u" ∧
    ChainedOutreach.chained_workflow (fun _ => Except.error "boom")
        (fun _ => Except.ok "msg") "u" =
      ⟨false, none, some "boom", "u"⟩ := by
  have h := C9_chained_workflow_safe (fun _ => Except.error "boom")
    (fun _ => Except.ok "msg") "u"
  exact ⟨h.1, h.2.2.2 "boom" rfl⟩

/-- C10: in the interactive path, for every rating input other than `'skip'`
(case-insensitive, after stripping), the recorded rating is
`max(1, min(5, int(input) if digits else 3))` — hence between 1 and 5, and 3
on non-digit input — and `approved` is true exactly when that rating is at
least 4. -/
theorem C10_interactive_rating (rating feedback missing corrections : String)
    (h : pyLower (pyStrip rating) ≠ "skip") :
    ∃ fb, HumanFeedback.request_human_review_interactive rating feedback
        missing corrections = HumanFeedback.ReviewOutcome.reviewed fb ∧
      fb.rating = HumanFeedback.rating_int_of (pyStrip rating) ∧
      1 ≤ fb.rating ∧ fb.rating ≤ 5 ∧
      (pyParseNat? (pyStrip rating) = none → fb.rating = 3) ∧
      (fb.approved = true ↔ 4 ≤ fb.rating) := by
  unfold HumanFeedback.request_human_review_interactive
  rw [if_neg h]
  refine ⟨_, rfl, rfl, ?_, ?_, ?_, ?_⟩
  · unfold HumanFeedback.rating_int_of
    cases pyParseNat? (pyStrip rating) <;> simp
  · unfold HumanFeedback.rating_int_of
    cases pyParseNat? (pyStrip rating) <;> simp
  · intro hn
    simp [HumanFeedback.rating_int_of, hn]
  · simp

/-- C10 witness: rating input `"7"` is clamped to 5 and approved; the
verified equivalences hold at this input. -/
theorem C10_witness :
    ∃ fb, HumanFeedback.request_human_review_interactive "7" "none" ""
        "fix title" = HumanFeedback.ReviewOutcome.reviewed fb ∧
      fb.rating = HumanFeedback.rating_int_of (pyStrip "7") ∧
      1 ≤ fb.rating ∧ fb.rating ≤ 5 ∧
      (pyParseNat? (pyStrip "7") = none → fb.rating = 3) ∧
      (fb.approved = true ↔ 4 ≤ fb.rating) :=
  C10_interactive_rating "7" "none" "" "fix title" (by decide)
